import Mathlib

/-!
Shallow embedding of the ctp-project research-data pipeline:
the collection script (fetch_usa_research_data.py) and the read-only
HTTP service (flask_api_usa.py).  Rows of the denormalized CSV table are
modelled by the structure `Row`; the `topics` CSV cell, which the service
parses with ast.literal_eval inside a try/except, is modelled as an
`Option (List Topic)` where `none` stands for an unparsable cell.
Each Flask view becomes a pure function from its query parameters and the
cached table to an `ApiResult`; the `exn` constructor marks an unhandled
Python exception (surfaced by Flask as a 500).
-/

/-- Entry of a parsed `topics` list: a {topic_id, topic_name, topic_works_count}
dictionary in the Python source. -/
structure Topic where
  topic_id : String
  topic_name : String
  topic_works_count : Int
deriving DecidableEq

/-- Row of the denormalized table as read by the service.  Numeric id and
count columns are parsed by pandas as integers; funder_id is a string id
such as F4320306076.  The provenance columns (fetch_date, country_code,
year_range) play no role in any view logic and are omitted. -/
structure Row where
  field_id : Int
  field_name : String
  subfield_id : Int
  subfield_name : String
  subfield_works_count : Int
  funder_id : String
  funder_name : String
  funder_works_count : Int
  topics : Option (List Topic)
deriving DecidableEq

/-- Body of an error response: jsonify({error: ...}). -/
structure ErrorBody where
  error : String
deriving DecidableEq

/-- Result of a view handler: a 200 response {count, data}, an error
response with an HTTP status code, or an unhandled Python exception
(which Flask surfaces as a 500 without the handler returning). -/
inductive ApiResult (α : Type) where
  | ok (count : Nat) (data : List α)
  | err (status : Nat) (body : ErrorBody)
  | exn
deriving DecidableEq

/-- Build the jsonify({count: len(l), data: l}) success response. -/
def okOf {α : Type} (l : List α) : ApiResult α := .ok l.length l

/-- Truthiness test of request.args.get(name): Python `not p` is true
when the parameter is absent or the empty string. -/
def paramMissing : Option String → Bool
  | none => true
  | some s => s = ""

/-- Strip leading and trailing whitespace characters, as Python int()
does before parsing. -/
def stripWs (cs : List Char) : List Char :=
  ((cs.dropWhile Char.isWhitespace).reverse.dropWhile Char.isWhitespace).reverse

/-- Evaluate a run of decimal digits to a natural number. -/
def digitsVal (cs : List Char) : Nat :=
  cs.foldl (fun a c => 10 * a + (c.toNat - 48)) 0

/-- Model of the Python built-in int() on a string: optional surrounding
whitespace, an optional sign, then one or more decimal digits; `none`
models a ValueError.  (Digit-group underscores and non-ASCII digits,
which CPython also accepts, never occur in the ids this service handles
and are not modelled.) -/
def pyParseInt (s : String) : Option Int :=
  let t := stripWs s.data
  let neg : Bool := match t with
    | '-' :: _ => true
    | _ => false
  let core : List Char := match t with
    | '-' :: rest => rest
    | '+' :: rest => rest
    | _ => t
  if core ≠ [] ∧ core.all Char.isDigit then
    some (if neg then -(digitsVal core : Int) else (digitsVal core : Int))
  else none

/-- Value of the pandas first aggregation on a column of a (nonempty)
group of rows; 0 is returned for the impossible empty group. -/
def aggFirst (rows : List Row) (f : Row → Int) : Int :=
  match rows with
  | [] => 0
  | r :: _ => f r

/-- Sum aggregation over a column of a group of rows. -/
def sumBy (rows : List Row) (f : Row → Int) : Int :=
  rows.foldl (fun a r => a + f r) 0

/-- Number of distinct values in a list (pandas nunique). -/
def nunique {α : Type} [DecidableEq α] (l : List α) : Nat :=
  l.dedup.length

/-!
Tabular store (load_data / reload_data).  The process-wide cache
data_cache is the state; the persisted CSV file is modelled as an
`Option (List Row)` argument where `none` stands for a read that raises
(missing or malformed file), which load_data catches and turns into a
None result.
-/

/-- State of the module-level data_cache variable. -/
structure StoreState where
  cache : Option (List Row)
deriving DecidableEq

/-- Model of load_data(): return the cache if set, else try to read the
CSV; on success fill the cache, on failure (the except branch) leave the
cache unset and return None. -/
def load_data (file : Option (List Row)) (s : StoreState) : Option (List Row) × StoreState :=
  match s.cache with
  | some t => (some t, s)
  | none =>
    match file with
    | some t => (some t, ⟨some t⟩)
    | none => (none, s)

/-- Model of reload_data(): clear the cache, then load. -/
def reload_data (file : Option (List Row)) (_s : StoreState) : Option (List Row) × StoreState :=
  load_data file ⟨none⟩

/-- Status code selected by the /api/health handler: 500 when the table
is unavailable or empty, 200 otherwise. -/
def healthStatus (data : Option (List Row)) : Nat :=
  match data with
  | none => 500
  | some t => if t = [] then 500 else 200

/-!
The /api/fields view.
-/

/-- Output element of the Fields view.  (The view also sums the
funder_works_count column in its groupby but never emits that
aggregate, so it is not carried here.) -/
structure FieldOut where
  id : Int
  name : String
  total_works : Int
  total_funders : Nat
deriving DecidableEq

/-- Ascending-by-name order used by sorted(key=lambda x: x[name]). -/
def fieldLe (a b : FieldOut) : Prop := a.name ≤ b.name

instance fieldLeDec : DecidableRel fieldLe := fun a b =>
  inferInstanceAs (Decidable (a.name ≤ b.name))

/-- Rows of the group keyed by a (field_id, field_name) pair. -/
def fieldGroup (tbl : List Row) (k : Int × String) : List Row :=
  tbl.filter (fun r => r.field_id == k.1 && r.field_name == k.2)

/-- Body of get_fields once the table is known to be loaded and
nonempty: group by (field_id, field_name), aggregate, sort by name.
Pandas emits the groups in sorted key order; since distinct group keys
carry the same aggregates in any order and the list is re-sorted by
name afterwards, the distinct keys are taken here in dedup order. -/
def fieldsCore (tbl : List Row) : List FieldOut :=
  let keys := (tbl.map (fun r => (r.field_id, r.field_name))).dedup
  let entries := keys.map (fun k =>
    { id := k.1, name := k.2,
      total_works := sumBy (fieldGroup tbl k) Row.subfield_works_count,
      total_funders := nunique ((fieldGroup tbl k).map Row.funder_id) : FieldOut })
  List.insertionSort fieldLe entries

/-- Model of the get_fields handler. -/
def getFields (data : Option (List Row)) : ApiResult FieldOut :=
  match data with
  | none => .err 500 ⟨"Data not loaded"⟩
  | some tbl =>
    if tbl = [] then .err 500 ⟨"Data not loaded"⟩
    else okOf (fieldsCore tbl)

/-!
The /api/subfields view.
-/

/-- Output element of the Subfields view. -/
structure SubfieldOut where
  id : Int
  name : String
  works_count : Int
  funder_count : Nat
  total_funders : Nat
deriving DecidableEq

/-- Descending-by-funder_count order of sort_values(funder_count,
ascending=False). -/
def subfieldGe (a b : SubfieldOut) : Prop := b.funder_count ≤ a.funder_count

instance subfieldGeDec : DecidableRel subfieldGe := fun a b =>
  inferInstanceAs (Decidable (b.funder_count ≤ a.funder_count))

instance subfieldGeTotal : IsTotal SubfieldOut subfieldGe :=
  ⟨fun a b => le_total b.funder_count a.funder_count⟩

instance subfieldGeTrans : IsTrans SubfieldOut subfieldGe :=
  ⟨fun _ _ _ h1 h2 => le_trans h2 h1⟩

/-- Rows of the group keyed by a (subfield_id, subfield_name) pair. -/
def subfieldGroup (rows : List Row) (k : Int × String) : List Row :=
  rows.filter (fun r => r.subfield_id == k.1 && r.subfield_name == k.2)

/-- Aggregate funder_id nunique of the (subfield_id, subfield_name)
group within the field-filtered rows. -/
def funderCountIn (field_data : List Row) (sid : Int) (sname : String) : Nat :=
  nunique ((subfieldGroup field_data (sid, sname)).map Row.funder_id)

/-- Distinct funder_id count for a subfield_id across the whole table
(the all_subfield_funders dictionary). -/
def totalFundersFor (tbl : List Row) (sid : Int) : Nat :=
  nunique (((tbl.filter (fun r => r.subfield_id == sid))).map Row.funder_id)

/-- Body of get_subfields on the field-filtered nonempty rows: group by
(subfield_id, subfield_name), aggregate, sort by funder_count
descending, keep the top 20.  As in `fieldsCore`, the pandas sorted
group-key order is normalized away by the explicit value sort. -/
def subfieldsCore (tbl field_data : List Row) : List SubfieldOut :=
  let keys := (field_data.map (fun r => (r.subfield_id, r.subfield_name))).dedup
  let entries := keys.map (fun k =>
    { id := k.1, name := k.2,
      works_count := aggFirst (subfieldGroup field_data k) Row.subfield_works_count,
      funder_count := funderCountIn field_data k.1 k.2,
      total_funders := totalFundersFor tbl k.1 : SubfieldOut })
  (List.insertionSort subfieldGe entries).take 20

/-- Model of the get_subfields handler. -/
def getSubfields (field_id : Option String) (data : Option (List Row)) :
    ApiResult SubfieldOut :=
  if paramMissing field_id then .err 400 ⟨"field_id parameter is required"⟩
  else
    match data with
    | none => .err 500 ⟨"Data not loaded"⟩
    | some tbl =>
      if tbl = [] then .err 500 ⟨"Data not loaded"⟩
      else
        match pyParseInt (field_id.getD "") with
        | none => .exn
        | some fid =>
          let field_data := tbl.filter (fun r => r.field_id == fid)
          if field_data = [] then .ok 0 []
          else okOf (subfieldsCore tbl field_data)

/-!
The /api/funders view.
-/

/-- Output element of the Funders view. -/
structure FunderOut where
  id : String
  name : String
  works_count : Int
deriving DecidableEq

/-- Descending-by-works_count order of sort_values(funder_works_count,
ascending=False). -/
def funderGe (a b : FunderOut) : Prop := b.works_count ≤ a.works_count

instance funderGeDec : DecidableRel funderGe := fun a b =>
  inferInstanceAs (Decidable (b.works_count ≤ a.works_count))

instance funderGeTotal : IsTotal FunderOut funderGe :=
  ⟨fun a b => le_total b.works_count a.works_count⟩

instance funderGeTrans : IsTrans FunderOut funderGe :=
  ⟨fun _ _ _ h1 h2 => le_trans h2 h1⟩

/-- Rows of the group keyed by a (funder_id, funder_name) pair. -/
def funderGroup (rows : List Row) (k : String × String) : List Row :=
  rows.filter (fun r => r.funder_id == k.1 && r.funder_name == k.2)

/-- Body of get_funders on the subfield-filtered nonempty rows: group by
(funder_id, funder_name) taking the first funder_works_count, sort by it
descending, keep the top 20. -/
def fundersCore (subfield_data : List Row) : List FunderOut :=
  let keys := (subfield_data.map (fun r => (r.funder_id, r.funder_name))).dedup
  let entries := keys.map (fun k =>
    { id := k.1, name := k.2,
      works_count := aggFirst (funderGroup subfield_data k) Row.funder_works_count :
      FunderOut })
  (List.insertionSort funderGe entries).take 20

/-- Model of the get_funders handler. -/
def getFunders (subfield_id : Option String) (data : Option (List Row)) :
    ApiResult FunderOut :=
  if paramMissing subfield_id then .err 400 ⟨"subfield_id parameter is required"⟩
  else
    match data with
    | none => .err 500 ⟨"Data not loaded"⟩
    | some tbl =>
      if tbl = [] then .err 500 ⟨"Data not loaded"⟩
      else
        match pyParseInt (subfield_id.getD "") with
        | none => .exn
        | some sid =>
          let subfield_data := tbl.filter (fun r => r.subfield_id == sid)
          if subfield_data = [] then .ok 0 []
          else okOf (fundersCore subfield_data)

/-!
The /api/topics view.
-/

/-- Descending-by-topic_works_count order of sorted(reverse=True). -/
def topicGe (a b : Topic) : Prop := b.topic_works_count ≤ a.topic_works_count

instance topicGeDec : DecidableRel topicGe := fun a b =>
  inferInstanceAs (Decidable (b.topic_works_count ≤ a.topic_works_count))

instance topicGeTotal : IsTotal Topic topicGe :=
  ⟨fun a b => le_total b.topic_works_count a.topic_works_count⟩

instance topicGeTrans : IsTrans Topic topicGe :=
  ⟨fun _ _ _ h1 h2 => le_trans h2 h1⟩

/-- Concatenation of the parsed topics of the matching rows in row
order; a row whose topics cell fails to parse hits the except/continue
branch and contributes nothing. -/
def extractTopics (rows : List Row) : List Topic :=
  rows.foldr (fun r acc =>
    match r.topics with
    | some ts => ts ++ acc
    | none => acc) []

/-- One step of the unique_topics dictionary build: insert an unseen
topic_id at the end, and on a duplicate id replace the stored entry in
place only when the new entry has a strictly higher works count. -/
def dedupInsert (acc : List Topic) (t : Topic) : List Topic :=
  if acc.any (fun u => u.topic_id == t.topic_id) then
    acc.map (fun u =>
      if u.topic_id == t.topic_id && u.topic_works_count < t.topic_works_count then t else u)
  else acc ++ [t]

/-- The unique_topics dictionary of get_topics, as its insertion-ordered
value list. -/
def dedupTopics (ts : List Topic) : List Topic :=
  ts.foldl dedupInsert []

/-- Rows matching the Topics view filter: funder_id compared as a raw
string, subfield_id as an integer. -/
def topicsFilter (fid : String) (sid : Int) (tbl : List Row) : List Row :=
  tbl.filter (fun r => r.funder_id == fid && r.subfield_id == sid)

/-- Body of get_topics on the filtered rows: extract, deduplicate by
topic_id keeping the higher count, sort descending by count, keep the
top 10. -/
def topicsCore (matching : List Row) : List Topic :=
  (List.insertionSort topicGe (dedupTopics (extractTopics matching))).take 10

/-- Model of the get_topics handler. -/
def getTopics (funder_id subfield_id : Option String) (data : Option (List Row)) :
    ApiResult Topic :=
  if paramMissing funder_id || paramMissing subfield_id then
    .err 400 ⟨"Both funder_id and subfield_id parameters are required"⟩
  else
    match data with
    | none => .err 500 ⟨"Data not loaded"⟩
    | some tbl =>
      if tbl = [] then .err 500 ⟨"Data not loaded"⟩
      else
        match pyParseInt (subfield_id.getD "") with
        | none => .exn
        | some sid =>
          let filtered := topicsFilter (funder_id.getD "") sid tbl
          if filtered = [] then .ok 0 []
          else okOf (topicsCore filtered)

/-!
The /api/research_data view.
-/

/-- Output element of the combined research-data view; its topics column
is the raw stored cell of the first row of the group. -/
structure ResearchOut where
  funder_id : String
  funder_name : String
  field_name : String
  subfield_name : String
  funder_works_count : Int
  subfield_works_count : Int
  topics : Option (List Topic)
deriving DecidableEq

/-- Apply one optional integer-valued filter of get_research_data:
absent or empty parameters are skipped, a present one is converted with
int() (a `none` result models the raised ValueError) and compared. -/
def filterIntParam (p : Option String) (key : Row → Int) (rows : List Row) :
    Option (List Row) :=
  if paramMissing p then some rows
  else
    match pyParseInt (p.getD "") with
    | none => none
    | some v => some (rows.filter (fun r => key r == v))

/-- Rows of the group keyed by (funder_id, funder_name, field_name,
subfield_name). -/
def researchGroup (rows : List Row) (k : String × String × String × String) : List Row :=
  rows.filter (fun r =>
    r.funder_id == k.1 && r.funder_name == k.2.1 &&
    r.field_name == k.2.2.1 && r.subfield_name == k.2.2.2)

/-- First-row topics cell of a group. -/
def aggFirstTopics (rows : List Row) : Option (List Topic) :=
  match rows with
  | [] => none
  | r :: _ => r.topics

/-- Final regrouping of get_research_data by (funder_id, funder_name,
field_name, subfield_name) taking the first value of each remaining
column.  The pandas sorted group-key order is immaterial to the
verified properties and distinct keys are taken in dedup order. -/
def researchCore (rows : List Row) : List ResearchOut :=
  let keys := (rows.map (fun r =>
    (r.funder_id, r.funder_name, r.field_name, r.subfield_name))).dedup
  keys.map (fun k =>
    { funder_id := k.1, funder_name := k.2.1,
      field_name := k.2.2.1, subfield_name := k.2.2.2,
      funder_works_count := aggFirst (researchGroup rows k) Row.funder_works_count,
      subfield_works_count := aggFirst (researchGroup rows k) Row.subfield_works_count,
      topics := aggFirstTopics (researchGroup rows k) : ResearchOut })

/-- Apply the optional funder_id filter of get_research_data: this one
compares the raw parameter string, so it cannot raise. -/
def filterFunderParam (p : Option String) (rows : List Row) : List Row :=
  if paramMissing p then rows
  else rows.filter (fun r => r.funder_id == p.getD "")

/-- Per-row topic_id membership filter of get_research_data: a row whose
topics cell fails to parse hits the except/continue branch and is
dropped. -/
def topicMatchFilter (p : Option String) (rows : List Row) : List Row :=
  rows.filter (fun r =>
    match r.topics with
    | some ts => ts.any (fun t => t.topic_id == p.getD "")
    | none => false)

/-- Model of the get_research_data handler: progressive optional
filters, then the per-row topic_id membership filter with its
try/except row skip, then the regrouping. -/
def getResearchData (field_id subfield_id funder_id topic_id : Option String)
    (data : Option (List Row)) : ApiResult ResearchOut :=
  match data with
  | none => .err 500 ⟨"Data not loaded"⟩
  | some tbl =>
    if tbl = [] then .err 500 ⟨"Data not loaded"⟩
    else
      match filterIntParam field_id Row.field_id tbl with
      | none => .exn
      | some d1 =>
        match filterIntParam subfield_id Row.subfield_id d1 with
        | none => .exn
        | some d2 =>
          let d3 := filterFunderParam funder_id d2
          if d3 = [] then .ok 0 []
          else if paramMissing topic_id then okOf (researchCore d3)
          else
            let tf := topicMatchFilter topic_id d3
            if tf = [] then .ok 0 []
            else okOf (researchCore tf)

/-!
The hierarchical collector (fetch_usa_research_data.py).  The external
grouping API is modelled by three functions giving, for the fixed filter
constraints (country US, years 1975 to 2025), the grouped-count results:
by subfield for a field id, by funder for a subfield id, and by topic
for a (subfield id, funder key) pair.
-/

/-- One grouped-count result of the external API. -/
structure ApiGroup where
  key : String
  key_display_name : String
  count : Int
deriving DecidableEq

/-- Record appended by the collector for each (field, subfield, funder)
leaf; the topics list is serialized with str() for the CSV, which keeps
its content. -/
structure FetchRecord where
  field_id : String
  field_name : String
  subfield_id : String
  subfield_name : String
  subfield_works_count : Int
  funder_id : String
  funder_name : String
  funder_works_count : Int
  topics : List Topic
deriving DecidableEq

/-- Split a character list on a separator, Python str.split style: the
result is always nonempty and empty segments are kept. -/
def splitOnChar (sep : Char) : List Char → List (List Char)
  | [] => [[]]
  | c :: cs =>
    let r := splitOnChar sep cs
    if c = sep then [] :: r
    else
      match r with
      | [] => [[c]]
      | h :: t => (c :: h) :: t

/-- Last path segment of a group key: key.split on the slash, last
element. -/
def lastSeg (s : String) : String :=
  String.mk ((splitOnChar '/' s.data).getLastD [])

/-- The static field enumeration, in dictionary insertion order. -/
def TARGET_FIELDS : List (String × String) :=
  [("Chemical Engineering", "15"), ("Chemistry", "16"), ("Computer Science", "17"),
   ("Earth and Planetary Sciences", "19"), ("Energy", "21"), ("Engineering", "22"),
   ("Environmental Science", "23"), ("Materials Science", "25"),
   ("Mathematics", "26"), ("Physics and Astronomy", "31")]

/-- Topics gathered for one (subfield, funder) pair: top 10 topic
groups, ids taken as the last key segment. -/
def topicsOf (tg : String → String → List ApiGroup) (sid fkey : String) : List Topic :=
  ((tg sid fkey).take 10).map (fun g =>
    { topic_id := lastSeg g.key, topic_name := g.key_display_name,
      topic_works_count := g.count : Topic })

/-- Records appended while processing one subfield: top 20 funder
groups, one record per funder. -/
def funderRecords (fid fname sid sname : String) (swc : Int)
    (fg : String → List ApiGroup) (tg : String → String → List ApiGroup) : List FetchRecord :=
  ((fg sid).take 20).map (fun g =>
    { field_id := fid, field_name := fname, subfield_id := sid,
      subfield_name := sname, subfield_works_count := swc,
      funder_id := lastSeg g.key, funder_name := g.key_display_name,
      funder_works_count := g.count, topics := topicsOf tg sid g.key : FetchRecord })

/-- Records appended while processing one field: top 20 subfield
groups, each traversed for funders. -/
def subfieldRecords (fname fid : String) (sg fg : String → List ApiGroup)
    (tg : String → String → List ApiGroup) : List FetchRecord :=
  (((sg fid).take 20).map (fun g =>
    funderRecords fid fname (lastSeg g.key) g.key_display_name g.count fg tg)).flatten

/-- Model of fetch_field_subfield_funder_data: walk the static field
enumeration and flatten the traversal into the record list.  The
per-field try/except only skips a whole field on an external failure
and is not modelled; a failing field contributes no records either
way. -/
def fetch_field_subfield_funder_data (sg fg : String → List ApiGroup)
    (tg : String → String → List ApiGroup) : List FetchRecord :=
  (TARGET_FIELDS.map (fun p => subfieldRecords p.1 p.2 sg fg tg)).flatten

/-- The (field_id, subfield_id, funder_id) triple of a record. -/
def tripleOf (r : FetchRecord) : String × String × String :=
  (r.field_id, r.subfield_id, r.funder_id)

/-!
General helper lemmas about sorting, deduplication and membership.
-/

/-- Output of the sort-then-truncate step is sorted. -/
theorem sorted_sort_take {α : Type} (r : α → α → Prop) [DecidableRel r]
    [IsTotal α r] [IsTrans α r] (l : List α) (n : Nat) :
    List.Sorted r ((List.insertionSort r l).take n) :=
  List.Pairwise.sublist (List.take_sublist n _) (List.sorted_insertionSort r l)

/-- Distinctness of a projection survives the sort-then-truncate step. -/
theorem nodup_map_sort_take {α β : Type} (r : α → α → Prop) [DecidableRel r]
    (f : α → β) (l : List α) (n : Nat) (h : (l.map f).Nodup) :
    (((List.insertionSort r l).take n).map f).Nodup := by
  have hperm : (List.map f (List.insertionSort r l)).Perm (List.map f l) :=
    (List.perm_insertionSort r l).map f
  have hsort : (List.map f (List.insertionSort r l)).Nodup := hperm.symm.nodup h
  rw [List.map_take]
  exact List.Nodup.sublist (List.take_sublist n _) hsort

/-- Members of the sort-then-truncate output are members of the input. -/
theorem mem_of_mem_sort_take {α : Type} (r : α → α → Prop) [DecidableRel r]
    {l : List α} {n : Nat} {x : α} (h : x ∈ (List.insertionSort r l).take n) :
    x ∈ l :=
  (List.mem_insertionSort r).mp ((List.take_sublist n _).subset h)

/-!
Concrete fixtures used by witnesses and counterexamples.
-/

/-- Sample row constructor for the fixtures. -/
def mkRow (f : Int) (fn : String) (s : Int) (sn : String) (fu nm : String)
    (fwc : Int) (ts : Option (List Topic)) : Row :=
  { field_id := f, field_name := fn, subfield_id := s, subfield_name := sn,
    subfield_works_count := 100, funder_id := fu, funder_name := nm,
    funder_works_count := fwc, topics := ts }

/-- Fixture table: one funder in one subfield with duplicate and
unparsable topics cells. -/
def tblW : List Row :=
  [mkRow 1 "F" 5 "S" "F1" "N" 10 (some [⟨"T1", "alpha", 5⟩, ⟨"T2", "beta", 7⟩]),
   mkRow 1 "F" 5 "S" "F1" "N" 10 (some [⟨"T1", "gamma", 9⟩]),
   mkRow 1 "F" 5 "S" "F1" "N" 10 none]

/-!
C4: a missing or empty required parameter yields a 400 with an error
body before the table is even consulted.
-/

/-- C4: for every request to the Subfields, Funders, or Topics view in
which a required parameter is absent or the empty string, the handler
returns status 400 with an error body, whatever the table state, and
never a 500 or an unhandled exception. -/
theorem missing_param_yields_400 (data : Option (List Row)) :
    (∀ p, p = none ∨ p = some "" →
      getSubfields p data = .err 400 ⟨"field_id parameter is required"⟩) ∧
    (∀ p, p = none ∨ p = some "" →
      getFunders p data = .err 400 ⟨"subfield_id parameter is required"⟩) ∧
    (∀ p q, (p = none ∨ p = some "") ∨ (q = none ∨ q = some "") →
      getTopics p q data =
        .err 400 ⟨"Both funder_id and subfield_id parameters are required"⟩) := by
  refine ⟨?_, ?_, ?_⟩
  · rintro p (rfl | rfl) <;> simp [getSubfields, paramMissing]
  · rintro p (rfl | rfl) <;> simp [getFunders, paramMissing]
  · rintro p q ((rfl | rfl) | (rfl | rfl)) <;> simp [getTopics, paramMissing]

/-- Witness for C4 at concrete inputs. -/
theorem missing_param_yields_400_witness :
    getSubfields none (some tblW) = .err 400 ⟨"field_id parameter is required"⟩ ∧
    getTopics (some "F1") (some "") (some tblW) =
      .err 400 ⟨"Both funder_id and subfield_id parameters are required"⟩ :=
  ⟨(missing_param_yields_400 (some tblW)).1 none (Or.inl rfl),
   (missing_param_yields_400 (some tblW)).2.2 (some "F1") (some "")
     (Or.inr (Or.inr rfl))⟩

/-!
C9: a present but non-numeric id parameter makes the int() conversion
raise, surfacing as a 500 rather than a 400.
-/

/-- C9: with the table loaded and nonempty, a present non-decimal id
parameter makes each of the three views raise from the int conversion
(an unhandled exception, surfaced as a 500), not return a 400. -/
theorem non_numeric_param_raises :
    getSubfields (some "abc") (some tblW) = .exn ∧
    getFunders (some "abc") (some tblW) = .exn ∧
    getTopics (some "F1") (some "abc") (some tblW) = .exn := by
  refine ⟨?_, ?_, ?_⟩ <;> decide

/-!
C7: the tabular store contract and the server-error behaviour of the
endpoints when the table is unavailable.
-/

/-- C7: load_data returns the cached snapshot unchanged when present and
reads the file only on a cold cache; reload_data clears the cache and
re-reads; a failed read yields None rather than an exception; and every
endpoint that checks the loaded data answers 500 when it is None. -/
theorem store_load_contract :
    (∀ file t, load_data file ⟨some t⟩ = (some t, ⟨some t⟩)) ∧
    (∀ file, load_data file ⟨none⟩ = (file, ⟨file⟩)) ∧
    (∀ file s, reload_data file s = (file, ⟨file⟩)) ∧
    (load_data none ⟨none⟩ = (none, ⟨none⟩)) ∧
    (healthStatus none = 500) ∧
    (getFields none = .err 500 ⟨"Data not loaded"⟩) ∧
    (∀ p, paramMissing p = false → getSubfields p none = .err 500 ⟨"Data not loaded"⟩) ∧
    (∀ p, paramMissing p = false → getFunders p none = .err 500 ⟨"Data not loaded"⟩) ∧
    (∀ p q, paramMissing p = false → paramMissing q = false →
      getTopics p q none = .err 500 ⟨"Data not loaded"⟩) ∧
    (∀ a b e f, getResearchData a b e f none = .err 500 ⟨"Data not loaded"⟩) := by
  refine ⟨?_, ?_, ?_, rfl, rfl, rfl, ?_, ?_, ?_, ?_⟩
  · intro file t; rfl
  · intro file; cases file <;> rfl
  · intro file s; unfold reload_data; cases file <;> rfl
  · intro p hp; simp [getSubfields, hp]
  · intro p hp; simp [getFunders, hp]
  · intro p q hp hq; simp [getTopics, hp, hq]
  · intro a b e f; rfl

/-- Witness for C7 at concrete inputs. -/
theorem store_load_contract_witness :
    load_data (some tblW) ⟨none⟩ = (some tblW, ⟨some tblW⟩) ∧
    getSubfields (some "1") none = .err 500 ⟨"Data not loaded"⟩ :=
  ⟨store_load_contract.2.1 (some tblW),
   store_load_contract.2.2.2.2.2.2.1 (some "1") (by decide)⟩

/-!
C6: well-formed filters that match no rows give a 200 with an empty
result set.
-/

/-- Helper: the empty string never parses as an integer. -/
theorem pyParseInt_empty : pyParseInt "" = none := by decide

/-- Helper: a string that parses as an integer is not empty. -/
theorem ne_empty_of_parses {s : String} {v : Int} (h : pyParseInt s = some v) :
    s ≠ "" := by
  rintro rfl
  rw [pyParseInt_empty] at h
  exact Option.noConfusion h

/-- C6: on a loaded nonempty table, a view request whose well-formed
filters match no rows returns {count: 0, data: []} with status 200
rather than an error. -/
theorem empty_filter_yields_empty_ok (tbl : List Row) (hne : tbl ≠ []) :
    (∀ s fid, pyParseInt s = some fid →
      tbl.filter (fun r => r.field_id == fid) = [] →
      getSubfields (some s) (some tbl) = .ok 0 []) ∧
    (∀ s sid, pyParseInt s = some sid →
      tbl.filter (fun r => r.subfield_id == sid) = [] →
      getFunders (some s) (some tbl) = .ok 0 []) ∧
    (∀ f s sid, f ≠ "" → pyParseInt s = some sid →
      topicsFilter f sid tbl = [] →
      getTopics (some f) (some s) (some tbl) = .ok 0 []) := by
  refine ⟨?_, ?_, ?_⟩
  · intro s fid hp hfil
    have hs := ne_empty_of_parses hp
    simp [getSubfields, paramMissing, hs, hne, hp, hfil]
  · intro s sid hp hfil
    have hs := ne_empty_of_parses hp
    simp [getFunders, paramMissing, hs, hne, hp, hfil]
  · intro f s sid hf hp hfil
    have hs := ne_empty_of_parses hp
    simp [getTopics, paramMissing, hf, hs, hne, hp, hfil]

/-- Witness for C6 at concrete inputs: ids that occur nowhere in the
fixture table. -/
theorem empty_filter_yields_empty_ok_witness :
    getSubfields (some "99") (some tblW) = .ok 0 [] ∧
    getFunders (some "99") (some tblW) = .ok 0 [] ∧
    getTopics (some "NOPE") (some "99") (some tblW) = .ok 0 [] :=
  ⟨(empty_filter_yields_empty_ok tblW (by decide)).1 "99" 99 (by decide) (by decide),
   (empty_filter_yields_empty_ok tblW (by decide)).2.1 "99" 99 (by decide) (by decide),
   (empty_filter_yields_empty_ok tblW (by decide)).2.2 "NOPE" "99" 99 (by decide)
     (by decide) (by decide)⟩

/-!
C10: every 200 response carries count equal to the length of data.
-/

/-- C10: for each of the Fields, Subfields, Funders, Topics and combined
research-data views, a success response has count equal to the length of
its data list. -/
theorem count_matches_data_length :
    (∀ d c l, getFields d = .ok c l → c = l.length) ∧
    (∀ p d c l, getSubfields p d = .ok c l → c = l.length) ∧
    (∀ p d c l, getFunders p d = .ok c l → c = l.length) ∧
    (∀ p q d c l, getTopics p q d = .ok c l → c = l.length) ∧
    (∀ a b e f d c l, getResearchData a b e f d = .ok c l → c = l.length) := by
  refine ⟨?_, ?_, ?_, ?_, ?_⟩
  · intro d c l h
    simp only [getFields, okOf] at h
    split at h
    · exact ApiResult.noConfusion h
    · split at h
      · exact ApiResult.noConfusion h
      · cases h; rfl
  · intro p d c l h
    simp only [getSubfields, okOf] at h
    split at h
    · exact ApiResult.noConfusion h
    · split at h
      · exact ApiResult.noConfusion h
      · split at h
        · exact ApiResult.noConfusion h
        · split at h
          · exact ApiResult.noConfusion h
          · split at h
            · cases h; rfl
            · cases h; rfl
  · intro p d c l h
    simp only [getFunders, okOf] at h
    split at h
    · exact ApiResult.noConfusion h
    · split at h
      · exact ApiResult.noConfusion h
      · split at h
        · exact ApiResult.noConfusion h
        · split at h
          · exact ApiResult.noConfusion h
          · split at h
            · cases h; rfl
            · cases h; rfl
  · intro p q d c l h
    simp only [getTopics, okOf] at h
    split at h
    · exact ApiResult.noConfusion h
    · split at h
      · exact ApiResult.noConfusion h
      · split at h
        · exact ApiResult.noConfusion h
        · split at h
          · exact ApiResult.noConfusion h
          · split at h
            · cases h; rfl
            · cases h; rfl
  · intro a b e f d c l h
    simp only [getResearchData, okOf] at h
    split at h
    · exact ApiResult.noConfusion h
    · split at h
      · exact ApiResult.noConfusion h
      · split at h
        · exact ApiResult.noConfusion h
        · split at h
          · exact ApiResult.noConfusion h
          · split at h
            · cases h; rfl
            · split at h
              · cases h; rfl
              · split at h
                · cases h; rfl
                · cases h; rfl

/-- Witness for C10 at a concrete success response. -/
theorem count_matches_data_length_witness :
    2 = (topicsCore (topicsFilter "F1" 5 tblW)).length :=
  count_matches_data_length.2.2.2.1 (some "F1") (some "5") (some tblW) 2
    (topicsCore (topicsFilter "F1" 5 tblW)) (by decide)

/-!
Invariants of the unique_topics dictionary build (dedupInsert folds).
-/

/-- Membership in the dictionary after one insertion: either the new
entry or an old one. -/
theorem mem_dedupInsert {acc : List Topic} {t v : Topic}
    (hv : v ∈ dedupInsert acc t) : v = t ∨ v ∈ acc := by
  unfold dedupInsert at hv
  split at hv
  · obtain ⟨u, hu, heq⟩ := List.mem_map.mp hv
    by_cases hc : (u.topic_id == t.topic_id && u.topic_works_count < t.topic_works_count) = true
    · rw [if_pos hc] at heq; exact Or.inl heq.symm
    · rw [if_neg hc] at heq; exact Or.inr (heq ▸ hu)
  · rcases List.mem_append.mp hv with h | h
    · exact Or.inr h
    · exact Or.inl (List.mem_singleton.mp h)

/-- One insertion step keeps the stored topic ids distinct. -/
theorem dedupInsert_ids_nodup {acc : List Topic} (t : Topic)
    (h : (acc.map Topic.topic_id).Nodup) :
    ((dedupInsert acc t).map Topic.topic_id).Nodup := by
  unfold dedupInsert
  split
  case isTrue hp =>
    have hids : (acc.map (fun u =>
        if u.topic_id == t.topic_id && u.topic_works_count < t.topic_works_count
        then t else u)).map Topic.topic_id = acc.map Topic.topic_id := by
      rw [List.map_map]
      apply List.map_congr_left
      intro u _
      by_cases hc : (u.topic_id == t.topic_id && u.topic_works_count < t.topic_works_count) = true
      · have hid : u.topic_id = t.topic_id := by
          have := (Bool.and_eq_true _ _).mp hc
          exact beq_iff_eq.mp this.1
        simp only [Function.comp_apply]
        rw [if_pos hc]
        exact hid.symm
      · simp only [Function.comp_apply]
        rw [if_neg hc]
    rw [hids]
    exact h
  case isFalse hp =>
    rw [List.map_append]
    rw [List.nodup_append]
    refine ⟨h, List.nodup_singleton _, ?_⟩
    intro x hx hx2
    rcases List.mem_map.mp hx with ⟨u, hu, hux⟩
    have hxid : x = t.topic_id := by simpa using hx2
    apply hp
    simp only [List.any_eq_true, beq_iff_eq]
    exact ⟨u, hu, hux.trans hxid⟩

/-- One insertion step keeps every stored entry at least as heavy as any
same-id entry seen so far. -/
theorem dedupInsert_dominates {acc seen : List Topic} (t : Topic)
    (h2 : ∀ v ∈ acc, ∀ u ∈ seen, u.topic_id = v.topic_id →
      u.topic_works_count ≤ v.topic_works_count)
    (h3 : ∀ u ∈ seen, ∃ w ∈ acc, w.topic_id = u.topic_id) :
    ∀ v ∈ dedupInsert acc t, ∀ u ∈ seen ++ [t], u.topic_id = v.topic_id →
      u.topic_works_count ≤ v.topic_works_count := by
  intro v hv u hu hid
  rcases List.mem_append.mp hu with huseen | hut
  · -- u was seen before this step
    unfold dedupInsert at hv
    split at hv
    case isTrue hp =>
      obtain ⟨u0, hu0, heq⟩ := List.mem_map.mp hv
      by_cases hc : (u0.topic_id == t.topic_id && u0.topic_works_count < t.topic_works_count) = true
      · rw [if_pos hc] at heq
        subst heq
        obtain ⟨hcid, hclt⟩ := (Bool.and_eq_true _ _).mp hc
        have hcid2 : u0.topic_id = t.topic_id := beq_iff_eq.mp hcid
        have hclt2 : u0.topic_works_count < t.topic_works_count := by
          simpa using hclt
        have := h2 u0 hu0 u huseen (hid.trans hcid2.symm)
        exact le_of_lt (lt_of_le_of_lt this hclt2)
      · rw [if_neg hc] at heq
        subst heq
        exact h2 u0 hu0 u huseen hid
    case isFalse hp =>
      rcases List.mem_append.mp hv with hva | hvt
      · exact h2 v hva u huseen hid
      · have hvt2 : v = t := List.mem_singleton.mp hvt
        subst hvt2
        obtain ⟨w, hw, hwid⟩ := h3 u huseen
        exact absurd (by
          simp only [List.any_eq_true, beq_iff_eq]
          exact ⟨w, hw, hwid.trans hid⟩) hp
  · -- u is the entry being inserted
    have hut2 : u = t := List.mem_singleton.mp hut
    subst hut2
    unfold dedupInsert at hv
    split at hv
    case isTrue hp =>
      obtain ⟨u0, hu0, heq⟩ := List.mem_map.mp hv
      by_cases hc : (u0.topic_id == u.topic_id && u0.topic_works_count < u.topic_works_count) = true
      · rw [if_pos hc] at heq
        subst heq
        exact le_refl _
      · rw [if_neg hc] at heq
        subst heq
        have : ¬ (u0.topic_id = u.topic_id ∧ u0.topic_works_count < u.topic_works_count) := by
          intro hcontra
          exact hc (by simp [hcontra.1, hcontra.2])
        rcases not_and_or.mp this with hne | hnl
        · exact absurd hid.symm hne
        · exact le_of_not_lt hnl
    case isFalse hp =>
      rcases List.mem_append.mp hv with hva | hvt
      · exact absurd (by
          simp only [List.any_eq_true, beq_iff_eq]
          exact ⟨v, hva, hid.symm⟩) hp
      · have : v = u := List.mem_singleton.mp hvt
        subst this
        exact le_refl _

/-- One insertion step keeps an entry for every id seen so far. -/
theorem dedupInsert_covers {acc seen : List Topic} (t : Topic)
    (h3 : ∀ u ∈ seen, ∃ w ∈ acc, w.topic_id = u.topic_id) :
    ∀ u ∈ seen ++ [t], ∃ w ∈ dedupInsert acc t, w.topic_id = u.topic_id := by
  have hkeep : ∀ w ∈ acc, ∃ v ∈ dedupInsert acc t, v.topic_id = w.topic_id := by
    intro w hw
    unfold dedupInsert
    split
    case isTrue hp =>
      refine ⟨(if w.topic_id == t.topic_id && w.topic_works_count < t.topic_works_count
        then t else w), List.mem_map_of_mem _ hw, ?_⟩
      by_cases hc : (w.topic_id == t.topic_id && w.topic_works_count < t.topic_works_count) = true
      · rw [if_pos hc]
        exact (beq_iff_eq.mp ((Bool.and_eq_true _ _).mp hc).1).symm
      · rw [if_neg hc]
    case isFalse hp =>
      exact ⟨w, List.mem_append_left _ hw, rfl⟩
  intro u hu
  rcases List.mem_append.mp hu with huseen | hut
  · obtain ⟨w, hw, hwid⟩ := h3 u huseen
    obtain ⟨v, hv, hvid⟩ := hkeep w hw
    exact ⟨v, hv, hvid.trans hwid⟩
  · have : u = t := List.mem_singleton.mp hut
    subst this
    unfold dedupInsert
    split
    case isTrue hp =>
      obtain ⟨w, hw, hwid⟩ : ∃ w ∈ acc, w.topic_id = u.topic_id := by
        simpa only [List.any_eq_true, beq_iff_eq] using hp
      refine ⟨(if w.topic_id == u.topic_id && w.topic_works_count < u.topic_works_count
        then u else w), List.mem_map_of_mem _ hw, ?_⟩
      by_cases hc : (w.topic_id == u.topic_id && w.topic_works_count < u.topic_works_count) = true
      · rw [if_pos hc]
      · rw [if_neg hc]; exact hwid
    case isFalse hp =>
      exact ⟨u, List.mem_append_right _ (List.mem_singleton_self _), rfl⟩

/-- Invariant of the whole dictionary fold. -/
theorem foldl_dedupInsert_inv :
    ∀ (l acc seen : List Topic),
    (acc.map Topic.topic_id).Nodup →
    (∀ v ∈ acc, ∀ u ∈ seen, u.topic_id = v.topic_id →
      u.topic_works_count ≤ v.topic_works_count) →
    (∀ u ∈ seen, ∃ w ∈ acc, w.topic_id = u.topic_id) →
    (∀ v ∈ acc, v ∈ seen) →
    ((((l.foldl dedupInsert acc).map Topic.topic_id).Nodup) ∧
     (∀ v ∈ l.foldl dedupInsert acc, ∀ u ∈ seen ++ l, u.topic_id = v.topic_id →
        u.topic_works_count ≤ v.topic_works_count) ∧
     (∀ u ∈ seen ++ l, ∃ w ∈ l.foldl dedupInsert acc, w.topic_id = u.topic_id) ∧
     (∀ v ∈ l.foldl dedupInsert acc, v ∈ seen ++ l)) := by
  intro l
  induction l with
  | nil =>
    intro acc seen h1 h2 h3 h4
    simpa using ⟨h1, h2, h3, h4⟩
  | cons t l ih =>
    intro acc seen h1 h2 h3 h4
    have step := ih (dedupInsert acc t) (seen ++ [t])
      (dedupInsert_ids_nodup t h1)
      (dedupInsert_dominates t h2 h3)
      (dedupInsert_covers t h3)
      (by
        intro v hv
        rcases mem_dedupInsert hv with rfl | hva
        · exact List.mem_append_right _ (List.mem_singleton_self _)
        · exact List.mem_append_left _ (h4 v hva))
    have hassoc : (seen ++ [t]) ++ l = seen ++ (t :: l) := by
      rw [List.append_assoc, List.singleton_append]
    rw [hassoc] at step
    simpa [List.foldl_cons] using step

/-- Specification of the unique_topics dictionary: distinct ids, every
retained entry is maximal among the same-id extracted entries, and every
retained entry comes from the extracted entries. -/
theorem dedupTopics_spec (l : List Topic) :
    (((dedupTopics l).map Topic.topic_id).Nodup) ∧
    (∀ v ∈ dedupTopics l, ∀ u ∈ l, u.topic_id = v.topic_id →
      u.topic_works_count ≤ v.topic_works_count) ∧
    (∀ v ∈ dedupTopics l, v ∈ l) := by
  have h := foldl_dedupInsert_inv l [] []
    (by simp) (by simp) (by simp) (by simp)
  simp only [List.nil_append] at h
  exact ⟨h.1, h.2.1, h.2.2.2⟩

/-!
Properties of the Topics view body.
-/

/-- Truncation bound of the Topics view body. -/
theorem topicsCore_length (m : List Row) : (topicsCore m).length ≤ 10 := by
  unfold topicsCore
  exact List.length_take_le _ _

/-- Distinct topic ids in the Topics view body. -/
theorem topicsCore_ids_nodup (m : List Row) :
    ((topicsCore m).map Topic.topic_id).Nodup :=
  nodup_map_sort_take topicGe _ _ 10 (dedupTopics_spec _).1

/-- Sortedness of the Topics view body. -/
theorem topicsCore_sorted (m : List Row) : (topicsCore m).Sorted topicGe :=
  sorted_sort_take topicGe _ 10

/-- Every returned topic is an extracted topic that is maximal in works
count among the extracted topics with its id. -/
theorem topicsCore_max (m : List Row) :
    ∀ t ∈ topicsCore m, t ∈ extractTopics m ∧
      ∀ u ∈ extractTopics m, u.topic_id = t.topic_id →
        u.topic_works_count ≤ t.topic_works_count := by
  intro t ht
  have htd : t ∈ dedupTopics (extractTopics m) := mem_of_mem_sort_take topicGe ht
  exact ⟨(dedupTopics_spec _).2.2 t htd,
    fun u hu hid => (dedupTopics_spec _).2.1 t htd u hu hid⟩

/-- C1: whenever the Topics view succeeds, the returned list has at most
10 elements, its topic ids are pairwise distinct, it is sorted in
non-increasing order of topic_works_count, and each returned entry is an
entry of the parsed topics of the matching rows whose works count is
maximal among the same-id entries there, so an entry with a strictly
higher works count than a duplicate is the one retained. -/
theorem topics_view_ok_props (f s : String) (tbl : List Row) (c : Nat) (l : List Topic)
    (h : getTopics (some f) (some s) (some tbl) = .ok c l) :
    l.length ≤ 10 ∧
    (l.map Topic.topic_id).Nodup ∧
    l.Sorted topicGe ∧
    (∀ sid, pyParseInt s = some sid →
      ∀ t ∈ l, t ∈ extractTopics (topicsFilter f sid tbl) ∧
        ∀ u ∈ extractTopics (topicsFilter f sid tbl),
          u.topic_id = t.topic_id → u.topic_works_count ≤ t.topic_works_count) := by
  simp only [getTopics, okOf, Option.getD_some] at h
  split at h
  · exact ApiResult.noConfusion h
  · split at h
    · exact ApiResult.noConfusion h
    · split at h
      · exact ApiResult.noConfusion h
      · next sid0 hparse =>
        split at h
        · next hfil =>
          cases h
          refine ⟨by simp, by simp, by simp, ?_⟩
          intro sid _ t ht
          exact absurd ht (List.not_mem_nil t)
        · next hfil =>
          cases h
          refine ⟨topicsCore_length _, topicsCore_ids_nodup _, topicsCore_sorted _, ?_⟩
          intro sid hps t ht
          have : sid = sid0 := by
            rw [hparse] at hps
            exact (Option.some.inj hps).symm
          subst this
          exact topicsCore_max _ t ht

/-- Witness for C1 at a concrete request: the fixture table holds a
duplicate topic id T1 with counts 5 and 9 and an unparsable row. -/
theorem topics_view_ok_props_witness :
    (topicsCore (topicsFilter "F1" 5 tblW)).length ≤ 10 ∧
    ((topicsCore (topicsFilter "F1" 5 tblW)).map Topic.topic_id).Nodup :=
  have h := topics_view_ok_props "F1" "5" tblW
    (topicsCore (topicsFilter "F1" 5 tblW)).length
    (topicsCore (topicsFilter "F1" 5 tblW)) (by decide)
  ⟨h.1, h.2.1⟩

/-!
C5: rows with an unparsable topics cell are skipped exactly.
-/

/-- Unfolding step of extractTopics. -/
theorem extractTopics_cons (r : Row) (rows : List Row) :
    extractTopics (r :: rows) =
      match r.topics with
      | some ts => ts ++ extractTopics rows
      | none => extractTopics rows := rfl

/-- Rows whose topics cell does not parse contribute nothing to the
extracted topics. -/
theorem extractTopics_filter_isSome (rows : List Row) :
    extractTopics rows = extractTopics (rows.filter (fun r => r.topics.isSome)) := by
  induction rows with
  | nil => rfl
  | cons r rows ih =>
    cases hr : r.topics with
    | none =>
      rw [extractTopics_cons, hr, List.filter_cons]
      simp only [hr, Option.isSome_none]
      exact ih
    | some ts =>
      rw [extractTopics_cons, hr, List.filter_cons]
      simp only [hr, Option.isSome_some, if_pos]
      rw [extractTopics_cons, hr, ih]

/-- C5: when some rows matching the Topics view filter carry an
unparsable topics cell, the request still succeeds, and its body is
computed exactly from the remaining well-formed matching rows: the
malformed rows contribute zero topics. -/
theorem malformed_topics_rows_skipped (f s : String) (sid : Int) (tbl : List Row)
    (hf : f ≠ "") (hp : pyParseInt s = some sid)
    (hmal : ∃ r ∈ topicsFilter f sid tbl, r.topics = none) :
    extractTopics (topicsFilter f sid tbl) =
      extractTopics ((topicsFilter f sid tbl).filter (fun r => r.topics.isSome)) ∧
    getTopics (some f) (some s) (some tbl) =
      okOf ((List.insertionSort topicGe (dedupTopics (extractTopics
        ((topicsFilter f sid tbl).filter (fun r => r.topics.isSome))))).take 10) := by
  have hfil : topicsFilter f sid tbl ≠ [] := by
    obtain ⟨r, hr, _⟩ := hmal
    intro he
    rw [he] at hr
    exact absurd hr (List.not_mem_nil r)
  have hne : tbl ≠ [] := by
    obtain ⟨r, hr, _⟩ := hmal
    intro he
    subst he
    simp [topicsFilter] at hr
  refine ⟨extractTopics_filter_isSome _, ?_⟩
  have hs := ne_empty_of_parses hp
  have hstep : getTopics (some f) (some s) (some tbl) =
      okOf (topicsCore (topicsFilter f sid tbl)) := by
    simp [getTopics, paramMissing, hf, hs, hne, hp, hfil]
  rw [hstep]
  unfold topicsCore
  rw [extractTopics_filter_isSome]

/-- Witness for C5: the third fixture row matches the filter and has an
unparsable topics cell. -/
theorem malformed_topics_rows_skipped_witness :
    getTopics (some "F1") (some "5") (some tblW) =
      okOf ((List.insertionSort topicGe (dedupTopics (extractTopics
        ((topicsFilter "F1" 5 tblW).filter (fun r => r.topics.isSome))))).take 10) :=
  (malformed_topics_rows_skipped "F1" "5" 5 tblW (by decide) (by decide)
    (by decide)).2

/-!
C2: the Funders view, as grouped by (funder_id, funder_name) pairs.
-/

/-- Truncation bound of the Funders view body. -/
theorem fundersCore_length (m : List Row) : (fundersCore m).length ≤ 20 := by
  unfold fundersCore
  exact List.length_take_le _ _

/-- Sortedness of the Funders view body. -/
theorem fundersCore_sorted (m : List Row) : (fundersCore m).Sorted funderGe := by
  unfold fundersCore
  exact sorted_sort_take funderGe _ 20

/-- The (id, name) pairs of the Funders view body are pairwise
distinct. -/
theorem fundersCore_pairs_nodup (m : List Row) :
    ((fundersCore m).map (fun e => (e.id, e.name))).Nodup := by
  unfold fundersCore
  apply nodup_map_sort_take
  rw [List.map_map]
  have hcomp : ((fun e : FunderOut => (e.id, e.name)) ∘
      (fun k : String × String =>
        ({ id := k.1, name := k.2,
           works_count := aggFirst (funderGroup m k) Row.funder_works_count } :
          FunderOut))) = id := funext fun k => rfl
  rw [hcomp, List.map_id]
  exact List.nodup_dedup _

/-- Every element of the Funders view body comes from a matching row
pair and carries the first works count of its group. -/
theorem fundersCore_mem (m : List Row) :
    ∀ e ∈ fundersCore m,
      (e.id, e.name) ∈ m.map (fun r => (r.funder_id, r.funder_name)) ∧
      e.works_count = aggFirst (funderGroup m (e.id, e.name)) Row.funder_works_count := by
  intro e he
  have he2 := mem_of_mem_sort_take funderGe he
  obtain ⟨k, hk, hke⟩ := List.mem_map.mp he2
  have hk2 : k ∈ m.map (fun r => (r.funder_id, r.funder_name)) := List.mem_dedup.mp hk
  subst hke
  exact ⟨hk2, rfl⟩

/-- When funder_id determines funder_name among the grouped rows, the
ids of the Funders view body are pairwise distinct. -/
theorem fundersCore_ids_nodup (m : List Row)
    (hfun : ∀ r1 ∈ m, ∀ r2 ∈ m, r1.funder_id = r2.funder_id →
      r1.funder_name = r2.funder_name) :
    ((fundersCore m).map FunderOut.id).Nodup := by
  unfold fundersCore
  apply nodup_map_sort_take
  rw [List.map_map]
  have hcomp : (FunderOut.id ∘
      (fun k : String × String =>
        ({ id := k.1, name := k.2,
           works_count := aggFirst (funderGroup m k) Row.funder_works_count } :
          FunderOut))) = Prod.fst := funext fun k => rfl
  rw [hcomp]
  apply List.Nodup.map_on ?_ (List.nodup_dedup _)
  intro k1 hk1 k2 hk2 hfst
  obtain ⟨r1, hr1, hk1e⟩ := List.mem_map.mp (List.mem_dedup.mp hk1)
  obtain ⟨r2, hr2, hk2e⟩ := List.mem_map.mp (List.mem_dedup.mp hk2)
  subst hk1e
  subst hk2e
  have := hfun r1 hr1 r2 hr2 hfst
  exact Prod.ext hfst this

/-- C2 (amended): whenever the Funders view succeeds, the returned list
has at most 20 elements, is sorted in non-increasing order of the first
funder_works_count of each (funder_id, funder_name) group, and the
returned (funder_id, funder_name) pairs are pairwise distinct; when the
matching rows give each funder_id a single funder_name, the returned
funder_id values themselves are pairwise distinct. -/
theorem funders_view_props (s : String) (sid : Int) (tbl : List Row) (c : Nat)
    (l : List FunderOut)
    (hp : pyParseInt s = some sid)
    (h : getFunders (some s) (some tbl) = .ok c l) :
    l.length ≤ 20 ∧
    l.Sorted funderGe ∧
    (∀ e ∈ l, e.works_count =
      aggFirst (funderGroup (tbl.filter (fun r => r.subfield_id == sid)) (e.id, e.name))
        Row.funder_works_count) ∧
    (l.map (fun e => (e.id, e.name))).Nodup ∧
    ((∀ r1 ∈ tbl, ∀ r2 ∈ tbl, r1.subfield_id = sid → r2.subfield_id = sid →
        r1.funder_id = r2.funder_id → r1.funder_name = r2.funder_name) →
      (l.map FunderOut.id).Nodup) := by
  simp only [getFunders, okOf, Option.getD_some] at h
  split at h
  · exact ApiResult.noConfusion h
  · split at h
    · exact ApiResult.noConfusion h
    · split at h
      · exact ApiResult.noConfusion h
      · next sid0 hparse =>
        have hsid : sid0 = sid := by
          rw [hparse] at hp
          exact Option.some.inj hp
        subst hsid
        split at h
        · cases h
          exact ⟨by simp, by simp, by simp, by simp, fun _ => by simp⟩
        · cases h
          refine ⟨fundersCore_length _, fundersCore_sorted _, ?_, fundersCore_pairs_nodup _, ?_⟩
          · intro e he
            exact (fundersCore_mem _ e he).2
          · intro hfun
            apply fundersCore_ids_nodup
            intro r1 hr1 r2 hr2 hid
            have h1 := List.mem_filter.mp hr1
            have h2 := List.mem_filter.mp hr2
            exact hfun r1 h1.1 r2 h2.1 (beq_iff_eq.mp h1.2) (beq_iff_eq.mp h2.2) hid

/-- Witness for C2 at a concrete request on the fixture table. -/
theorem funders_view_props_witness :
    (fundersCore (tblW.filter (fun r => r.subfield_id == (5 : Int)))).length ≤ 20 :=
  (funders_view_props "5" 5 tblW
    (fundersCore (tblW.filter (fun r => r.subfield_id == (5 : Int)))).length
    (fundersCore (tblW.filter (fun r => r.subfield_id == (5 : Int))))
    (by decide) (by decide)).1

/-- Fixture for the C2 counterexample: one funder_id with two distinct
funder names inside the same subfield. -/
def tblFunderDup : List Row :=
  [mkRow 1 "F" 5 "S" "F1" "A" 7 none,
   mkRow 1 "F" 5 "S" "F1" "B" 3 none]

/-- Counterexample to C2 as stated: on a table where funder_id F1
carries two names, the Funders view succeeds with a nonempty result in
which funder_id F1 appears in two distinct returned elements. -/
theorem funders_view_id_unique_cx :
    getFunders (some "5") (some tblFunderDup) =
      .ok 2 [⟨"F1", "A", 7⟩, ⟨"F1", "B", 3⟩] ∧
    ¬ (([⟨"F1", "A", 7⟩, ⟨"F1", "B", 3⟩] : List FunderOut).map FunderOut.id).Nodup := by
  exact ⟨by decide, by decide⟩

/-!
C3: the Subfields view, as grouped by (subfield_id, subfield_name)
pairs.
-/

/-- Truncation bound of the Subfields view body. -/
theorem subfieldsCore_length (tbl m : List Row) : (subfieldsCore tbl m).length ≤ 20 := by
  unfold subfieldsCore
  exact List.length_take_le _ _

/-- Sortedness of the Subfields view body by its funder_count field. -/
theorem subfieldsCore_sorted (tbl m : List Row) :
    (subfieldsCore tbl m).Sorted subfieldGe := by
  unfold subfieldsCore
  exact sorted_sort_take subfieldGe _ 20

/-- Every element of the Subfields view body carries the distinct
funder count of its own (subfield_id, subfield_name) group. -/
theorem subfieldsCore_mem (tbl m : List Row) :
    ∀ e ∈ subfieldsCore tbl m,
      (e.id, e.name) ∈ m.map (fun r => (r.subfield_id, r.subfield_name)) ∧
      e.funder_count = funderCountIn m e.id e.name ∧
      e.total_funders = totalFundersFor tbl e.id := by
  intro e he
  have he2 := mem_of_mem_sort_take subfieldGe he
  obtain ⟨k, hk, hke⟩ := List.mem_map.mp he2
  have hk2 : k ∈ m.map (fun r => (r.subfield_id, r.subfield_name)) := List.mem_dedup.mp hk
  subst hke
  exact ⟨hk2, rfl, rfl⟩

/-- C3 (amended): whenever the Subfields view succeeds, the returned
list has at most 20 elements and is sorted in non-increasing order of
funder_count, where funder_count of a returned group is the number of
distinct funder_id values among the rows matching that field_id and
that (subfield_id, subfield_name) pair. -/
theorem subfields_view_props (s : String) (fid : Int) (tbl : List Row) (c : Nat)
    (l : List SubfieldOut)
    (hp : pyParseInt s = some fid)
    (h : getSubfields (some s) (some tbl) = .ok c l) :
    l.length ≤ 20 ∧
    l.Sorted subfieldGe ∧
    ∀ e ∈ l, e.funder_count =
      funderCountIn (tbl.filter (fun r => r.field_id == fid)) e.id e.name := by
  simp only [getSubfields, okOf, Option.getD_some] at h
  split at h
  · exact ApiResult.noConfusion h
  · split at h
    · exact ApiResult.noConfusion h
    · split at h
      · exact ApiResult.noConfusion h
      · next fid0 hparse =>
        have hfid : fid0 = fid := by
          rw [hparse] at hp
          exact Option.some.inj hp
        subst hfid
        split at h
        · cases h
          exact ⟨by simp, by simp, by simp⟩
        · cases h
          refine ⟨subfieldsCore_length _ _, subfieldsCore_sorted _ _, ?_⟩
          intro e he
          exact (subfieldsCore_mem _ _ e he).2.1

/-- Witness for C3 at a concrete request on the fixture table. -/
theorem subfields_view_props_witness :
    (subfieldsCore tblW (tblW.filter (fun r => r.field_id == (1 : Int)))).length ≤ 20 :=
  (subfields_view_props "1" 1 tblW
    (subfieldsCore tblW (tblW.filter (fun r => r.field_id == (1 : Int)))).length
    (subfieldsCore tblW (tblW.filter (fun r => r.field_id == (1 : Int))))
    (by decide) (by decide)).1

/-- Funder count as the claim defines it: the number of distinct
funder_id values among the rows matching the field filter and the
subfield_id alone, ignoring the subfield_name. -/
def claimFunderCount (field_data : List Row) (sid : Int) : Nat :=
  nunique ((field_data.filter (fun r => r.subfield_id == sid)).map Row.funder_id)

/-- Fixture for the C3 counterexample: subfield_id 5 carries two
distinct names, splitting its three funders between two groups. -/
def tblSubDup : List Row :=
  [mkRow 1 "F" 5 "X" "f1" "n" 1 none,
   mkRow 1 "F" 5 "X2" "f2" "n" 1 none,
   mkRow 1 "F" 5 "X2" "f3" "n" 1 none,
   mkRow 1 "F" 6 "Y" "f10" "n" 1 none,
   mkRow 1 "F" 6 "Y" "f11" "n" 1 none]

/-- Counterexample to C3 as stated: with funder_count defined per
(field_id, subfield_id) as the claim words it, the returned list is not
sorted in non-increasing order of that quantity; the second returned
element has claim-funder-count 2 while the third has 3. -/
theorem subfields_view_sorted_cx :
    getSubfields (some "1") (some tblSubDup) =
      .ok 3 [⟨5, "X2", 100, 2, 3⟩, ⟨6, "Y", 100, 2, 2⟩, ⟨5, "X", 100, 1, 3⟩] ∧
    claimFunderCount (tblSubDup.filter (fun r => r.field_id == (1 : Int))) 6 = 2 ∧
    claimFunderCount (tblSubDup.filter (fun r => r.field_id == (1 : Int))) 5 = 3 ∧
    ¬ (([⟨5, "X2", 100, 2, 3⟩, ⟨6, "Y", 100, 2, 2⟩, ⟨5, "X", 100, 1, 3⟩] :
        List SubfieldOut).Sorted (fun a b =>
          claimFunderCount (tblSubDup.filter (fun r => r.field_id == (1 : Int))) b.id ≤
          claimFunderCount (tblSubDup.filter (fun r => r.field_id == (1 : Int))) a.id)) := by
  refine ⟨by decide, by decide, by decide, ?_⟩
  intro hs
  have := List.rel_of_sorted_cons (List.sorted_cons.mp hs).2
    ⟨5, "X", 100, 1, 3⟩ (by simp)
  revert this
  decide

/-!
C8: uniqueness of (field_id, subfield_id, funder_id) triples in the
collector output.
-/

/-- Triples of the records of one subfield pass, as a map over the
extracted funder ids. -/
theorem funderRecords_triples (fid fname sid sname : String) (swc : Int)
    (fg : String → List ApiGroup) (tg : String → String → List ApiGroup) :
    (funderRecords fid fname sid sname swc fg tg).map tripleOf =
      (((fg sid).take 20).map (fun g => lastSeg g.key)).map
        (fun x => (fid, sid, x)) := by
  unfold funderRecords tripleOf
  rw [List.map_map, List.map_map]
  rfl

/-- Distinct extracted funder ids give distinct triples within one
subfield pass. -/
theorem funderRecords_triples_nodup (fid fname sid sname : String) (swc : Int)
    (fg : String → List ApiGroup) (tg : String → String → List ApiGroup)
    (hf : ((fg sid).map (fun g => lastSeg g.key)).Nodup) :
    ((funderRecords fid fname sid sname swc fg tg).map tripleOf).Nodup := by
  rw [funderRecords_triples]
  apply List.Nodup.map
  · intro a b hab
    simpa using hab
  · rw [List.map_take]
    exact List.Nodup.sublist (List.take_sublist 20 _) hf

/-- Triples of one subfield pass carry that field id and subfield id. -/
theorem mem_funderRecords_triples (fid fname sid sname : String) (swc : Int)
    (fg : String → List ApiGroup) (tg : String → String → List ApiGroup)
    {x : String × String × String}
    (hx : x ∈ (funderRecords fid fname sid sname swc fg tg).map tripleOf) :
    x.1 = fid ∧ x.2.1 = sid := by
  rw [funderRecords_triples] at hx
  obtain ⟨y, _, hyx⟩ := List.mem_map.mp hx
  subst hyx
  exact ⟨rfl, rfl⟩

/-- Distinct extracted subfield and funder ids give distinct triples
within one field pass. -/
theorem subfieldRecords_triples_nodup (fname fid : String)
    (sg fg : String → List ApiGroup) (tg : String → String → List ApiGroup)
    (hs : ((sg fid).map (fun g => lastSeg g.key)).Nodup)
    (hf : ∀ s, ((fg s).map (fun g => lastSeg g.key)).Nodup) :
    ((subfieldRecords fname fid sg fg tg).map tripleOf).Nodup := by
  unfold subfieldRecords
  rw [List.map_flatten, List.map_map]
  rw [List.nodup_flatten]
  constructor
  · intro l hl
    obtain ⟨g, _, hgl⟩ := List.mem_map.mp hl
    subst hgl
    exact funderRecords_triples_nodup _ _ _ _ _ _ _ (hf _)
  · rw [List.pairwise_map]
    have hids : (((sg fid).take 20).map (fun g => lastSeg g.key)).Nodup := by
      rw [List.map_take]
      exact List.Nodup.sublist (List.take_sublist 20 _) hs
    have hpw : List.Pairwise (fun g1 g2 => lastSeg g1.key ≠ lastSeg g2.key)
        ((sg fid).take 20) := List.pairwise_map.mp hids
    apply hpw.imp
    intro g1 g2 hne
    rw [List.disjoint_left]
    intro x hx1 hx2
    have h1 := (mem_funderRecords_triples _ _ _ _ _ _ _ hx1).2
    have h2 := (mem_funderRecords_triples _ _ _ _ _ _ _ hx2).2
    exact hne (h1 ▸ h2 ▸ rfl)

/-- Triples of one field pass carry that field id. -/
theorem mem_subfieldRecords_triples (fname fid : String)
    (sg fg : String → List ApiGroup) (tg : String → String → List ApiGroup)
    {x : String × String × String}
    (hx : x ∈ (subfieldRecords fname fid sg fg tg).map tripleOf) :
    x.1 = fid := by
  unfold subfieldRecords at hx
  rw [List.map_flatten, List.map_map] at hx
  obtain ⟨l, hl, hxl⟩ := List.mem_flatten.mp hx
  obtain ⟨g, _, hgl⟩ := List.mem_map.mp hl
  subst hgl
  exact (mem_funderRecords_triples _ _ _ _ _ _ _ hxl).1

/-- C8 (amended): when every grouped-count query returns groups whose
extracted trailing id segments are pairwise distinct, each
(field_id, subfield_id, funder_id) triple occurs at most once in the
collector output. -/
theorem fetch_triples_nodup (sg fg : String → List ApiGroup)
    (tg : String → String → List ApiGroup)
    (hs : ∀ fld, ((sg fld).map (fun g => lastSeg g.key)).Nodup)
    (hf : ∀ sid, ((fg sid).map (fun g => lastSeg g.key)).Nodup) :
    ((fetch_field_subfield_funder_data sg fg tg).map tripleOf).Nodup := by
  unfold fetch_field_subfield_funder_data
  rw [List.map_flatten, List.map_map]
  rw [List.nodup_flatten]
  constructor
  · intro l hl
    obtain ⟨p, _, hpl⟩ := List.mem_map.mp hl
    subst hpl
    exact subfieldRecords_triples_nodup _ _ _ _ _ (hs _) hf
  · rw [List.pairwise_map]
    have hflds : (TARGET_FIELDS.map Prod.snd).Nodup := by decide
    have hpw : List.Pairwise (fun p q : String × String => p.2 ≠ q.2) TARGET_FIELDS :=
      List.pairwise_map.mp hflds
    apply hpw.imp
    intro p q hne
    rw [List.disjoint_left]
    intro x hx1 hx2
    have h1 := mem_subfieldRecords_triples _ _ _ _ _ hx1
    have h2 := mem_subfieldRecords_triples _ _ _ _ _ hx2
    exact hne (h1 ▸ h2 ▸ rfl)

/-- External API fixture for the C8 witness: one field with one
subfield and two funders with distinct trailing id segments. -/
def sgW : String → List ApiGroup := fun fid =>
  if fid = "15" then [⟨"https://x/subfields/5", "S", 10⟩] else []

/-- Funder groups of the C8 witness fixture. -/
def fgW : String → List ApiGroup := fun sid =>
  if sid = "5" then [⟨"a/F1", "N1", 5⟩, ⟨"b/F2", "N2", 3⟩] else []

/-- Topic groups of the C8 witness fixture. -/
def tgW : String → String → List ApiGroup := fun _ _ => []

/-- Witness for C8 on the fixture API. -/
theorem fetch_triples_nodup_witness :
    ((fetch_field_subfield_funder_data sgW fgW tgW).map tripleOf).Nodup :=
  fetch_triples_nodup sgW fgW tgW
    (by
      intro fld
      by_cases h : fld = "15" <;> simp [sgW, h])
    (by
      intro sid
      by_cases h : sid = "5"
      · simp [fgW, h]
        decide
      · simp [fgW, h])

/-- External API fixture for the C8 counterexample: two funder groups
with pairwise distinct keys whose trailing id segments coincide. -/
def sgCx : String → List ApiGroup := fun fid =>
  if fid = "15" then [⟨"https://x/subfields/5", "S", 10⟩] else []

/-- Funder groups of the C8 counterexample fixture. -/
def fgCx : String → List ApiGroup := fun sid =>
  if sid = "5" then [⟨"a/F1", "N1", 5⟩, ⟨"b/F1", "N2", 3⟩] else []

/-- Topic groups of the C8 counterexample fixture. -/
def tgCx : String → String → List ApiGroup := fun _ _ => []

/-- Counterexample to C8 as stated: every grouped-count query of this
run returns groups with pairwise distinct keys, yet the collector
output contains the triple (15, 5, F1) twice, because two distinct
funder keys share the trailing id segment F1. -/
theorem fetch_triples_nodup_cx :
    (∀ fld, ((sgCx fld).map (fun g => g.key)).Nodup) ∧
    (∀ sid, ((fgCx sid).map (fun g => g.key)).Nodup) ∧
    (∀ sid fkey, ((tgCx sid fkey).map (fun g => g.key)).Nodup) ∧
    (fetch_field_subfield_funder_data sgCx fgCx tgCx).map tripleOf =
      [("15", "5", "F1"), ("15", "5", "F1")] ∧
    ¬ ((fetch_field_subfield_funder_data sgCx fgCx tgCx).map tripleOf).Nodup := by
  refine ⟨?_, ?_, ?_, by decide, ?_⟩
  · intro fld
    by_cases h : fld = "15" <;> simp [sgCx, h]
  · intro sid
    by_cases h : sid = "5" <;> simp [fgCx, h]
  · intro sid fkey
    simp [tgCx]
  · intro hnd
    rw [show (fetch_field_subfield_funder_data sgCx fgCx tgCx).map tripleOf =
      [("15", "5", "F1"), ("15", "5", "F1")] from by decide] at hnd
    revert hnd
    decide
